import Mathlib

/-!  Verification of the ignition/continuity analysis scripts.

Shallow embedding over the reals of `sim/ignition.py` and `sim/diode.py`:
the NMOS and Diode device models, the damped fixed-point drive-current
solver with its 1000-iteration cap, and the closed-form continuity-voltage
computation, together with theorems settling the specification claims.
-/

open Real

namespace Ignition

/-! ## Globals (ignition.py lines 23-24) -/

def ERROR_THRESHOLD : ℝ := 0.01

def MAX_ITERATIONS : ℕ := 1000

/-! ## NMOS device model (ignition.py lines 32-54) -/

/-- N-channel MOSFET transistor parameters: transconductance `kn` and
threshold voltage `Vt`. -/
structure NMOS where
  kn : ℝ
  Vt : ℝ

/-- `NMOS.calc_drain_current` (ignition.py lines 38-45): three-region drain
current from gate, drain and source voltages. -/
noncomputable def NMOS.calc_drain_current (m : NMOS) (Vg Vd Vs : ℝ) : ℝ :=
  let Vov := Vg - Vs - m.Vt
  if Vov < 0 then 0
  else if Vov < Vd - Vs then 0.5 * m.kn * Vov ^ 2
  else m.kn * (Vov * (Vd - Vs) - 0.5 * (Vd - Vs) ^ 2)

/-- `NMOS.calc_drain_current_sat` (ignition.py lines 53-54): saturation-only
drain current. -/
def NMOS.calc_drain_current_sat (m : NMOS) (Vg Vs : ℝ) : ℝ :=
  0.5 * m.kn * (Vg - Vs - m.Vt) ^ 2

/-! ## Schottky diode model (ignition.py lines 58-76, diode.py lines 27-31) -/

/-- Schottky diode parameters: saturation current `I0` and exponential
coefficient `alpha`. -/
structure Diode where
  I0 : ℝ
  alpha : ℝ

/-- `Diode.calc_current` (ignition.py lines 64-65): forward current from
forward voltage. -/
noncomputable def Diode.calc_current (d : Diode) (VF : ℝ) : ℝ :=
  d.I0 * (Real.exp (d.alpha * VF) - 1)

/-- `Diode.calc_voltage` (ignition.py lines 74-75): forward voltage drop from
current, the inverse mapping (total real-valued model; `math.log` junk values
never arise in the claims that use this form). -/
noncomputable def Diode.calc_voltage (d : Diode) (I : ℝ) : ℝ :=
  Real.log (I / d.I0 + 1) / d.alpha

/-- `Diode.calc_voltage` with Python `math.log` failure semantics:
`math.log` raises a domain error exactly on non-positive arguments, so the
computation returns `none` when `I / I0 + 1 ≤ 0` and otherwise the value of
ignition.py line 75. -/
noncomputable def Diode.calc_voltage? (d : Diode) (I : ℝ) : Option ℝ :=
  if I / d.I0 + 1 ≤ 0 then none
  else some (Real.log (I / d.I0 + 1) / d.alpha)

/-- `diode_equation` (diode.py lines 27-31): elementwise diode current over a
vector of voltages. -/
noncomputable def diode_equation (V : List ℝ) (alpha I0 : ℝ) : List ℝ :=
  V.map (fun voltage => I0 * (Real.exp (alpha * voltage) - 1))

/-! ## Circuit setup (ignition.py lines 84-91) -/

def mux_diode : Diode := ⟨0.004197, 13.28⟩

def drive_nmos : NMOS := ⟨4.2, 1.0⟩

def cont_nmos : NMOS := ⟨0.159, 1.5⟩

/-- Parasitic resistance, Ohm. -/
def Rp : ℝ := 1

/-- Continuity pull-up resistor, Ohm. -/
def Rcont : ℝ := 10000

/-- `np.linspace(3.7, 3.7*4, 100)` (ignition.py line 91): 100 evenly spaced
battery voltages including both endpoints. -/
noncomputable def input_voltages : List ℝ :=
  (List.range 100).map (fun i : ℕ => 3.7 + (i : ℝ) * (3.7 * 4 - 3.7) / 99)

/-! ## Drive-current fixed-point solver (ignition.py lines 98-125) -/

/-- Loop state of the iterative solver (ignition.py lines 100-115). -/
structure SolverState where
  error : ℝ
  current_actual : ℝ
  current_guess : ℝ
  num_iter : ℕ
  diode_VF : ℝ
  Vd : ℝ

/-- Step size control for stability (ignition.py line 105). -/
def learn_rate : ℝ := 0.01

/-- Initial solver state (ignition.py lines 101-104); `diode_VF` and `Vd`
are assigned on the first pass through the loop body, which always executes
since the initial error 100 exceeds the threshold. -/
def initState : SolverState :=
  { error := 100, current_actual := 0.1, current_guess := 0.1, num_iter := 0,
    diode_VF := 0, Vd := 0 }

/-- One pass through the solver loop body (ignition.py lines 110-115). -/
noncomputable def solverStep (voltage : ℝ) (s : SolverState) : SolverState :=
  let diode_VF := mux_diode.calc_voltage s.current_guess
  let Vd := voltage - diode_VF - s.current_guess * Rp
  let current_actual := drive_nmos.calc_drain_current 3.3 Vd 0
  let error := |current_actual - s.current_guess| / current_actual
  let current_guess := s.current_guess + learn_rate * (current_actual - s.current_guess)
  { error := error, current_actual := current_actual, current_guess := current_guess,
    num_iter := s.num_iter + 1, diode_VF := diode_VF, Vd := Vd }

open Classical in
/-- The solver while-loop (ignition.py line 109): loop while
`error >= ERROR_THRESHOLD and num_iter < MAX_ITERATIONS`.  Fuel-indexed;
with fuel at least `MAX_ITERATIONS + 1 - num_iter` it runs exactly as the
Python loop does, since `num_iter` rises by one per pass. -/
noncomputable def solverLoop (voltage : ℝ) : ℕ → SolverState → SolverState
  | 0, s => s
  | fuel + 1, s =>
    if ERROR_THRESHOLD ≤ s.error ∧ s.num_iter < MAX_ITERATIONS
    then solverLoop voltage fuel (solverStep voltage s)
    else s

/-- The full per-voltage solve (ignition.py lines 100-115). -/
noncomputable def solveDrive (voltage : ℝ) : SolverState :=
  solverLoop voltage (MAX_ITERATIONS + 1) initState

/-- Console report after the loop (ignition.py lines 117-120). -/
inductive Report where
  | converged : Report
  | failed : Report
deriving DecidableEq

/-- The reported diagnostic: `Solver failed to converge` when
`num_iter == MAX_ITERATIONS`, else `Solution converged in N iterations`. -/
def report (s : SolverState) : Report :=
  if s.num_iter = MAX_ITERATIONS then Report.failed else Report.converged

/-- Recorded sweep results (ignition.py lines 122-125): the sweep always
records the final `current_guess`, converged or not. -/
noncomputable def drive_currents : List ℝ :=
  input_voltages.map (fun v => (solveDrive v).current_guess)

/-- A concrete solver state used to probe the loop body: the incoming guess
`-0.003864336` lies in `(-I0, 0)`, so the diode logarithm is defined, and the
iteration count is 999. -/
def cexState : SolverState :=
  { error := 100, current_actual := 0.1, current_guess := -0.003864336,
    num_iter := 999, diode_VF := 0, Vd := 0 }

/-- A battery voltage chosen so that the loop body evaluated on `cexState`
produces drain voltage `Vd = -0.0004` and hence
`current_actual = 4.2*(2.3*(-0.0004) - 0.5*(-0.0004)^2) = -0.003864336`,
equal to the incoming guess. -/
noncomputable def cexVoltage : ℝ :=
  -0.0004 + mux_diode.calc_voltage (-0.003864336) + (-0.003864336) * Rp

/-! ## Continuity-voltage closed form (ignition.py lines 154-166) -/

/-- Overdrive voltage of the continuity transistor (ignition.py line 155). -/
def contVov (voltage : ℝ) : ℝ := voltage - cont_nmos.Vt

open Classical in
/-- Continuity transistor current (ignition.py lines 156-159). -/
noncomputable def contCurrent (voltage : ℝ) : ℝ :=
  if contVov voltage < 0 then 0 else cont_nmos.calc_drain_current_sat voltage 0

/-- Linear pull-up continuity voltage (ignition.py line 160). -/
noncomputable def contVcont (voltage : ℝ) : ℝ :=
  3.3 - contCurrent voltage * Rcont

/-- Quadratic coefficient offset `1/(kn*Rcont)` (ignition.py line 162). -/
noncomputable def contB : ℝ := 1 / (cont_nmos.kn * Rcont)

/-- Quadratic constant `2*3.3/(kn*Rcont)` (ignition.py line 163). -/
noncomputable def contC : ℝ := 2 * 3.3 / (cont_nmos.kn * Rcont)

open Classical in
/-- Per-point continuity output voltage (ignition.py lines 154-166). -/
noncomputable def contVoltage (voltage : ℝ) : ℝ :=
  if contVov voltage > contVcont voltage
  then (contVov voltage + contB) - Real.sqrt ((contVov voltage + contB) ^ 2 - contC)
  else contVcont voltage

/-! ## Claim theorems -/

/-- C3: for all transistor parameters `kn`, `Vt` and all real inputs `Vg`,
`Vd`, `Vs`, if the overdrive voltage `Vov = Vg - Vs - Vt` is strictly
negative then `NMOS.calc_drain_current` returns exactly 0, never a clamped
or negative value. -/
theorem C3_nmos_cutoff_zero (m : NMOS) (Vg Vd Vs : ℝ) (h : Vg - Vs - m.Vt < 0) :
    m.calc_drain_current Vg Vd Vs = 0 := by
  unfold NMOS.calc_drain_current
  rw [if_pos h]

/-- Witness for C3 at `kn = 1`, `Vt = 1`, `Vg = Vd = Vs = 0`. -/
theorem C3_nmos_cutoff_zero_witness :
    (NMOS.mk 1 1).calc_drain_current 0 0 0 = 0 :=
  C3_nmos_cutoff_zero ⟨1, 1⟩ 0 0 0 (by norm_num)

/-- C7: at the boundary `Vov = Vds` between the two non-cutoff regions, the
two branch formulas of `NMOS.calc_drain_current` agree —
`0.5*kn*Vov^2 = kn*(Vov*Vds - 0.5*Vds^2)` — so the drain current is
continuous across the boundary; moreover when `Vov ≥ 0` the computed value
there equals the common value. -/
theorem C7_nmos_boundary_continuous (m : NMOS) (Vg Vd Vs : ℝ)
    (h : Vg - Vs - m.Vt = Vd - Vs) :
    0.5 * m.kn * (Vg - Vs - m.Vt) ^ 2
      = m.kn * ((Vg - Vs - m.Vt) * (Vd - Vs) - 0.5 * (Vd - Vs) ^ 2) ∧
    (0 ≤ Vg - Vs - m.Vt →
      m.calc_drain_current Vg Vd Vs = 0.5 * m.kn * (Vg - Vs - m.Vt) ^ 2) := by
  constructor
  · rw [← h]; ring
  · intro h0
    unfold NMOS.calc_drain_current
    rw [if_neg (not_lt.mpr h0), if_neg (by rw [h]; exact lt_irrefl _), ← h]
    ring

/-- Witness for C7 at `kn = 2`, `Vt = 0`, `Vg = Vd = 1`, `Vs = 0`. -/
theorem C7_nmos_boundary_continuous_witness :
    0.5 * (NMOS.mk 2 0).kn * ((1 : ℝ) - 0 - (NMOS.mk 2 0).Vt) ^ 2
      = (NMOS.mk 2 0).kn * (((1 : ℝ) - 0 - (NMOS.mk 2 0).Vt) * (1 - 0) - 0.5 * (1 - 0) ^ 2) ∧
    (NMOS.mk 2 0).calc_drain_current 1 1 0
      = 0.5 * (NMOS.mk 2 0).kn * ((1 : ℝ) - 0 - (NMOS.mk 2 0).Vt) ^ 2 := by
  have h := C7_nmos_boundary_continuous ⟨2, 0⟩ 1 1 0 (by norm_num)
  exact ⟨h.1, h.2 (by norm_num)⟩

/-- C2: for every current `I > -I0` (with `I0 > 0` and `alpha > 0`),
composing the diode inverse and forward mappings round-trips exactly:
`calc_current (calc_voltage I) = I`. -/
theorem C2_diode_roundtrip (d : Diode) (hI0 : 0 < d.I0) (ha : 0 < d.alpha)
    (I : ℝ) (hI : -d.I0 < I) : d.calc_current (d.calc_voltage I) = I := by
  unfold Diode.calc_current Diode.calc_voltage
  have hx : 0 < I / d.I0 + 1 := by
    have h1 : -1 < I / d.I0 := by
      rw [lt_div_iff₀ hI0]; linarith
    linarith
  rw [mul_comm d.alpha, div_mul_cancel₀ _ (ne_of_gt ha), Real.exp_log hx]
  field_simp

/-- Witness for C2 at `I0 = 1`, `alpha = 1`, `I = 1`. -/
theorem C2_diode_roundtrip_witness :
    (Diode.mk 1 1).calc_current ((Diode.mk 1 1).calc_voltage 1) = 1 :=
  C2_diode_roundtrip ⟨1, 1⟩ (by norm_num) (by norm_num) 1 (by norm_num)

/-- C8: under the invariant `I0 > 0`, `alpha > 0`, the diode current function
`V ↦ I0*(e^(alpha*V) - 1)` computed by `Diode.calc_current` is strictly
increasing, and `diode_equation` computes exactly this map elementwise. -/
theorem C8_diode_current_strictMono (d : Diode) (hI0 : 0 < d.I0) (ha : 0 < d.alpha) :
    StrictMono d.calc_current ∧
      ∀ V : List ℝ, diode_equation V d.alpha d.I0 = V.map d.calc_current := by
  constructor
  · intro a b hab
    unfold Diode.calc_current
    have h1 : d.alpha * a < d.alpha * b := mul_lt_mul_of_pos_left hab ha
    have h2 := Real.exp_lt_exp.mpr h1
    have h3 : Real.exp (d.alpha * a) - 1 < Real.exp (d.alpha * b) - 1 := by linarith
    exact mul_lt_mul_of_pos_left h3 hI0
  · intro V
    rfl

/-- Witness for C8 at `I0 = 1`, `alpha = 1`, evaluated on `0 < 1`. -/
theorem C8_diode_current_strictMono_witness :
    (Diode.mk 1 1).calc_current 0 < (Diode.mk 1 1).calc_current 1 ∧
      diode_equation [0] 1 1 = [(Diode.mk 1 1).calc_current 0] := by
  have h := C8_diode_current_strictMono ⟨1, 1⟩ (by norm_num) (by norm_num)
  exact ⟨h.1 (by norm_num), h.2 [0]⟩

/-- C5 counterexample: the claim asserts every current with `I ≥ -I0` avoids
a non-positive logarithm argument, but at `I0 = 1`, `alpha = 1`, `I = -1` we
have `I ≥ -I0` while the logarithm argument `I/I0 + 1 = 0` is non-positive
and the computation fails with a domain error. -/
theorem C5_domain_counterexample :
    -(1 : ℝ) ≥ -(Diode.mk 1 1).I0 ∧ (Diode.mk 1 1).calc_voltage? (-1) = none := by
  constructor
  · norm_num
  · unfold Diode.calc_voltage?
    rw [if_pos (by norm_num)]

/-- C5 amended: for `I0 > 0` and `alpha > 0`, `calc_voltage` fails with a
logarithm domain error exactly when `I/I0 + 1 ≤ 0`, i.e. when `I ≤ -I0`, and
every current with `I > -I0` (strictly) avoids a non-positive logarithm
argument and returns `ln(I/I0 + 1)/alpha`. -/
theorem C5_calc_voltage_domain (d : Diode) (hI0 : 0 < d.I0) (ha : 0 < d.alpha)
    (I : ℝ) :
    (d.calc_voltage? I = none ↔ I ≤ -d.I0) ∧
    (-d.I0 < I →
      0 < I / d.I0 + 1 ∧
      d.calc_voltage? I = some (Real.log (I / d.I0 + 1) / d.alpha)) := by
  have key : I / d.I0 + 1 ≤ 0 ↔ I ≤ -d.I0 := by
    rw [← le_sub_iff_add_le, zero_sub, div_le_iff₀ hI0]
    constructor <;> intro h <;> nlinarith
  constructor
  · unfold Diode.calc_voltage?
    by_cases hc : I / d.I0 + 1 ≤ 0
    · rw [if_pos hc]
      simpa using key.mp hc
    · rw [if_neg hc]
      simp only [reduceCtorEq, false_iff]
      intro habs
      exact hc (key.mpr habs)
  · intro hI
    have hpos : 0 < I / d.I0 + 1 := by
      by_contra hc
      exact absurd (key.mp (le_of_not_lt hc)) (not_le.mpr hI)
    refine ⟨hpos, ?_⟩
    unfold Diode.calc_voltage?
    rw [if_neg (not_le.mpr hpos)]

/-- Witness for C5 amended at `I0 = 1`, `alpha = 1`, `I = 1`. -/
theorem C5_calc_voltage_domain_witness :
    ((Diode.mk 1 1).calc_voltage? 1 = none ↔ (1 : ℝ) ≤ -(Diode.mk 1 1).I0) ∧
    (0 : ℝ) < 1 / (Diode.mk 1 1).I0 + 1 ∧
    (Diode.mk 1 1).calc_voltage? 1
      = some (Real.log ((1 : ℝ) / (Diode.mk 1 1).I0 + 1) / (Diode.mk 1 1).alpha) := by
  have h := C5_calc_voltage_domain ⟨1, 1⟩ (by norm_num) (by norm_num) 1
  exact ⟨h.1, h.2 (by norm_num)⟩

/-- C4: the quadratic root `b - sqrt(b^2 - c)` is output exactly when
`Vov > Vcont` strictly; when `Vov ≤ Vcont`, and in particular in the
boundary case `Vov = Vcont`, the else branch is taken and the output equals
`Vcont`. -/
theorem C4_continuity_branch_selection (v : ℝ) :
    (contVcont v < contVov v →
      contVoltage v
        = (contVov v + contB) - Real.sqrt ((contVov v + contB) ^ 2 - contC)) ∧
    (contVov v ≤ contVcont v → contVoltage v = contVcont v) ∧
    (contVov v = contVcont v → contVoltage v = contVcont v) := by
  refine ⟨?_, ?_, ?_⟩
  · intro h
    unfold contVoltage
    rw [if_pos h]
  · intro h
    unfold contVoltage
    rw [if_neg (not_lt.mpr h)]
  · intro h
    unfold contVoltage
    rw [if_neg (not_lt.mpr h.le)]

/-- Witness for C4 at battery voltage 3.7 V, where `Vov = 2.2` exceeds
`Vcont = 3.3 - 0.5*0.159*2.2^2*10000` and the quadratic branch is taken. -/
theorem C4_continuity_branch_selection_witness :
    contVoltage 3.7
      = (contVov 3.7 + contB) - Real.sqrt ((contVov 3.7 + contB) ^ 2 - contC) :=
  (C4_continuity_branch_selection 3.7).1 (by
    unfold contVcont contVov contCurrent
    rw [if_neg (by unfold contVov cont_nmos; norm_num)]
    unfold cont_nmos NMOS.calc_drain_current_sat Rcont
    norm_num)

/-- C6: whenever the continuity computation selects the quadratic branch —
`current = calc_drain_current_sat V 0`, `Vcont = 3.3 - current*R`,
`Vov = V - Vt ≥ 0` and `Vov > Vcont`, with `kn > 0` and `R > 0` — the
radicand `b^2 - c` with `b = Vov + 1/(kn*R)` and `c = 2*3.3/(kn*R)` is
strictly positive, so the square root is within its domain. -/
theorem C6_radicand_positive (m : NMOS) (R V : ℝ) (hk : 0 < m.kn) (hR : 0 < R)
    (h0 : 0 ≤ V - m.Vt)
    (hbr : 3.3 - m.calc_drain_current_sat V 0 * R < V - m.Vt) :
    0 < (V - m.Vt + 1 / (m.kn * R)) ^ 2 - 2 * 3.3 / (m.kn * R) := by
  have hK : 0 < m.kn * R := mul_pos hk hR
  unfold NMOS.calc_drain_current_sat at hbr
  have hbr' : 3.3 - 0.5 * m.kn * (V - m.Vt) ^ 2 * R < V - m.Vt := by
    rw [sub_zero] at hbr
    linarith
  have expand : (V - m.Vt + 1 / (m.kn * R)) ^ 2 - 2 * 3.3 / (m.kn * R)
      = (((V - m.Vt) * (m.kn * R) + 1) ^ 2 - 2 * 3.3 * (m.kn * R)) / (m.kn * R) ^ 2 := by
    field_simp
    ring
  rw [expand]
  apply div_pos _ (by positivity)
  nlinarith [mul_pos hK (sub_pos.mpr hbr')]

/-- Witness for C6 with the continuity transistor, `R = 10000`, `V = 3.7`. -/
theorem C6_radicand_positive_witness :
    0 < ((3.7 : ℝ) - cont_nmos.Vt + 1 / (cont_nmos.kn * 10000)) ^ 2
        - 2 * 3.3 / (cont_nmos.kn * 10000) :=
  C6_radicand_positive cont_nmos 10000 3.7
    (by unfold cont_nmos; norm_num)
    (by norm_num)
    (by unfold cont_nmos; norm_num)
    (by unfold cont_nmos NMOS.calc_drain_current_sat; norm_num)

lemma solverStep_num_iter (v : ℝ) (s : SolverState) :
    (solverStep v s).num_iter = s.num_iter + 1 := rfl

lemma solverStep_error (v : ℝ) (s : SolverState) :
    (solverStep v s).error
      = |(solverStep v s).current_actual - s.current_guess|
          / (solverStep v s).current_actual := rfl

/-- With enough fuel, the solver loop exits with the iteration count capped
at `MAX_ITERATIONS` and the while condition false: either the recorded error
dropped below the threshold or the cap was reached. -/
lemma solverLoop_exit (v : ℝ) :
    ∀ (fuel : ℕ) (s : SolverState),
      MAX_ITERATIONS + 1 ≤ s.num_iter + fuel → s.num_iter ≤ MAX_ITERATIONS →
      (solverLoop v fuel s).num_iter ≤ MAX_ITERATIONS ∧
        ((solverLoop v fuel s).error < ERROR_THRESHOLD ∨
          (solverLoop v fuel s).num_iter = MAX_ITERATIONS) := by
  intro fuel
  induction fuel with
  | zero =>
    intro s hf hi
    omega
  | succ fuel ih =>
    intro s hf hi
    simp only [solverLoop]
    by_cases hc : ERROR_THRESHOLD ≤ s.error ∧ s.num_iter < MAX_ITERATIONS
    · rw [if_pos hc]
      exact ih (solverStep v s)
        (by rw [solverStep_num_iter]; omega)
        (by rw [solverStep_num_iter]; omega)
    · rw [if_neg hc]
      push_neg at hc
      by_cases he : s.error < ERROR_THRESHOLD
      · exact ⟨hi, Or.inl he⟩
      · exact ⟨hi, Or.inr (le_antisymm hi (hc (not_lt.mp he)))⟩

/-- C1: for every battery voltage in the 100-point sweep, the drive-current
solver performs at most 1000 iterations and on exit either the relative
error `|current_actual - current_guess|/current_actual` is below 0.01
(reported as converged) or the iteration count equals 1000 (reported as the
non-convergence diagnostic); in both cases the sweep records the last
`current_guess` and continues. -/
theorem C1_sweep_solver_termination :
    ∀ v ∈ input_voltages,
      (solveDrive v).num_iter ≤ MAX_ITERATIONS ∧
      ((solveDrive v).error < ERROR_THRESHOLD ∨
        (solveDrive v).num_iter = MAX_ITERATIONS) ∧
      ((solveDrive v).num_iter = MAX_ITERATIONS →
        report (solveDrive v) = Report.failed) ∧
      ((solveDrive v).num_iter ≠ MAX_ITERATIONS →
        report (solveDrive v) = Report.converged) ∧
      drive_currents = input_voltages.map (fun u => (solveDrive u).current_guess) := by
  intro v _
  have h := solverLoop_exit v (MAX_ITERATIONS + 1) initState
    (by simp [initState]) (by simp [initState])
  refine ⟨h.1, h.2, ?_, ?_, rfl⟩
  · intro hmax
    unfold report
    rw [if_pos hmax]
  · intro hne
    unfold report
    rw [if_neg hne]

/-- Witness for C1 at the first sweep point, battery voltage 3.7 V. -/
theorem C1_sweep_solver_termination_witness :
    (solveDrive 3.7).num_iter ≤ MAX_ITERATIONS ∧
    ((solveDrive 3.7).error < ERROR_THRESHOLD ∨
      (solveDrive 3.7).num_iter = MAX_ITERATIONS) ∧
    ((solveDrive 3.7).num_iter = MAX_ITERATIONS →
      report (solveDrive 3.7) = Report.failed) ∧
    ((solveDrive 3.7).num_iter ≠ MAX_ITERATIONS →
      report (solveDrive 3.7) = Report.converged) ∧
    drive_currents = input_voltages.map (fun u => (solveDrive u).current_guess) :=
  C1_sweep_solver_termination 3.7 (by
    unfold input_voltages
    simp only [List.mem_map, List.mem_range]
    exact ⟨0, by norm_num, by norm_num⟩)

lemma cex_step_current_actual :
    (solverStep cexVoltage cexState).current_actual = -0.003864336 := by
  simp only [solverStep, cexState]
  rw [show cexVoltage - mux_diode.calc_voltage (-0.003864336) - (-0.003864336) * Rp
        = -0.0004 from by unfold cexVoltage; ring]
  unfold NMOS.calc_drain_current drive_nmos
  norm_num

lemma cex_step_error : (solverStep cexVoltage cexState).error = 0 := by
  rw [solverStep_error]
  rw [cex_step_current_actual]
  simp only [cexState]
  norm_num

/-- C10 counterexample: at the concrete battery voltage `cexVoltage` and
loop state `cexState`, the loop body yields `current_actual < 0` while the
computed error is 0 — not negative — and, the cap having just been reached,
the point is reported as failed rather than converged. -/
theorem C10_counterexample :
    (solverStep cexVoltage cexState).current_actual < 0 ∧
    ¬ ((solverStep cexVoltage cexState).error < 0) ∧
    report (solverStep cexVoltage cexState) = Report.failed := by
  refine ⟨?_, ?_, ?_⟩
  · rw [cex_step_current_actual]
    norm_num
  · rw [cex_step_error]
    norm_num
  · unfold report
    rw [if_pos (by rw [solverStep_num_iter]; rfl)]

/-- C10 amended: when an iteration of the drive solver body produces a
strictly negative `current_actual`, the computed error
`|current_actual - current_guess|/current_actual` is nonpositive (strictly
negative whenever `current_actual` differs from the previous guess), the
while condition `error ≥ 0.01` is false, the loop exits immediately, and the
point is reported as converged provided the iteration count has not reached
1000. -/
theorem C10_negative_actual_exits (v : ℝ) (s : SolverState)
    (hca : (solverStep v s).current_actual < 0) :
    (solverStep v s).error ≤ 0 ∧
    ((solverStep v s).current_actual ≠ s.current_guess →
      (solverStep v s).error < 0) ∧
    ¬ (ERROR_THRESHOLD ≤ (solverStep v s).error) ∧
    (∀ fuel : ℕ, solverLoop v fuel (solverStep v s) = solverStep v s) ∧
    ((solverStep v s).num_iter ≠ MAX_ITERATIONS →
      report (solverStep v s) = Report.converged) := by
  have herr : (solverStep v s).error ≤ 0 := by
    rw [solverStep_error]
    exact div_nonpos_of_nonneg_of_nonpos (abs_nonneg _) hca.le
  have hlt : ¬ (ERROR_THRESHOLD ≤ (solverStep v s).error) := by
    apply not_le.mpr
    have : (0 : ℝ) < ERROR_THRESHOLD := by unfold ERROR_THRESHOLD; norm_num
    linarith
  refine ⟨herr, ?_, hlt, ?_, ?_⟩
  · intro hne
    rw [solverStep_error]
    exact div_neg_of_pos_of_neg (abs_pos.mpr (sub_ne_zero.mpr hne)) hca
  · intro fuel
    cases fuel with
    | zero => rfl
    | succ fuel =>
      simp only [solverLoop]
      rw [if_neg (fun h => hlt h.1)]
  · intro hne
    unfold report
    rw [if_neg hne]

/-- Witness for C10 amended at the concrete input `cexVoltage`, `cexState`. -/
theorem C10_negative_actual_exits_witness :
    (solverStep cexVoltage cexState).error ≤ 0 ∧
    ((solverStep cexVoltage cexState).current_actual ≠ cexState.current_guess →
      (solverStep cexVoltage cexState).error < 0) ∧
    ¬ (ERROR_THRESHOLD ≤ (solverStep cexVoltage cexState).error) ∧
    (∀ fuel : ℕ, solverLoop cexVoltage fuel (solverStep cexVoltage cexState)
      = solverStep cexVoltage cexState) ∧
    ((solverStep cexVoltage cexState).num_iter ≠ MAX_ITERATIONS →
      report (solverStep cexVoltage cexState) = Report.converged) :=
  C10_negative_actual_exits cexVoltage cexState
    (by rw [cex_step_current_actual]; norm_num)

/-- If `x ≤ p^n` then `log x ≤ n*(p - 1)`, from monotonicity of `log` and
`log p ≤ p - 1`. -/
lemma log_le_mul_sub_one {x p : ℝ} (n : ℕ) (hx : 0 < x) (hp : 0 < p)
    (h : x ≤ p ^ n) : Real.log x ≤ (n : ℝ) * (p - 1) := by
  calc Real.log x ≤ Real.log (p ^ n) := Real.log_le_log hx h
    _ = (n : ℝ) * Real.log p := Real.log_pow p n
    _ ≤ (n : ℝ) * (p - 1) :=
        mul_le_mul_of_nonneg_left (Real.log_le_sub_one_of_pos hp) (Nat.cast_nonneg n)

/-- If `p^n ≤ x` then `n*(1 - p⁻¹) ≤ log x`, from monotonicity of `log` and
`1 - p⁻¹ ≤ log p`. -/
lemma mul_one_sub_inv_le_log {x p : ℝ} (n : ℕ) (hp : 0 < p)
    (h : p ^ n ≤ x) : (n : ℝ) * (1 - p⁻¹) ≤ Real.log x := by
  calc (n : ℝ) * (1 - p⁻¹)
      ≤ (n : ℝ) * Real.log p :=
        mul_le_mul_of_nonneg_left (Real.one_sub_inv_le_log_of_pos hp) (Nat.cast_nonneg n)
    _ = Real.log (p ^ n) := (Real.log_pow p n).symm
    _ ≤ Real.log x := Real.log_le_log (pow_pos hp n) h

/-- C9: for the mux diode with `I0 = 0.004197` and `alpha = 13.28`,
`calc_voltage 0.1` returns exactly `ln(0.1/0.004197 + 1)/13.28`, which is
approximately 0.2415 V (within a tolerance of 0.001 V; the value lies near
0.2419 V). -/
theorem C9_mux_diode_voltage :
    mux_diode.calc_voltage 0.1 = Real.log (0.1 / 0.004197 + 1) / 13.28 ∧
    |mux_diode.calc_voltage 0.1 - 0.2415| < 0.001 := by
  have hform : mux_diode.calc_voltage 0.1 = Real.log (0.1 / 0.004197 + 1) / 13.28 := rfl
  refine ⟨hform, ?_⟩
  rw [hform]
  have hx : (0 : ℝ) < 0.1 / 0.004197 + 1 := by norm_num
  have hub : Real.log (0.1 / 0.004197 + 1) ≤ (2048 : ℝ) * ((1.001571 : ℝ) - 1) :=
    log_le_mul_sub_one 2048 hx (by norm_num) (by norm_num)
  have hlb : (2048 : ℝ) * (1 - (1.001567 : ℝ)⁻¹) ≤ Real.log (0.1 / 0.004197 + 1) :=
    mul_one_sub_inv_le_log 2048 (by norm_num) (by norm_num)
  have h1 : Real.log (0.1 / 0.004197 + 1) < 13.28 * 0.2425 :=
    lt_of_le_of_lt hub (by norm_num)
  have h2 : (13.28 : ℝ) * 0.2405 < Real.log (0.1 / 0.004197 + 1) :=
    lt_of_lt_of_le (by norm_num) hlb
  have h3 : Real.log (0.1 / 0.004197 + 1) / 13.28 < 0.2425 := by
    rw [div_lt_iff₀ (by norm_num : (0 : ℝ) < 13.28)]
    linarith
  have h4 : (0.2405 : ℝ) < Real.log (0.1 / 0.004197 + 1) / 13.28 := by
    rw [lt_div_iff₀ (by norm_num : (0 : ℝ) < 13.28)]
    linarith
  rw [abs_lt]
  constructor
  · linarith
  · linarith

end Ignition
